import Mathlib

/-!
Verification of the Cauchy distribution evaluators from
src/stan/prob/distributions/univariate/continuous/cauchy.hpp.

The C++ code computes over IEEE doubles.  We model a double value in the
idealized way: a finite value is an exact real number, and the special
values positive infinity, negative infinity and NaN are explicit
constructors.  Arithmetic on the special values follows the IEEE rules
the C++ code relies on (NaN propagates; infinity minus a finite value is
infinity; and so on); finite arithmetic is exact real arithmetic.
-/

namespace StanCauchy

/-- Model of a C++ double: an exact finite real, or one of the special
values positive infinity, negative infinity, NaN. -/
inductive FP where
  | finite (x : ℝ)
  | posInf
  | negInf
  | nan

namespace FP

/-- Model of the C++ isnan test. -/
def isNan : FP → Bool
  | nan => true
  | _ => false

/-- Model of the boost isfinite test used by the finiteness check. -/
def isFinite : FP → Bool
  | finite _ => true
  | _ => false

/-- IEEE addition on the model (finite addition is exact). -/
def add : FP → FP → FP
  | nan, _ => nan
  | _, nan => nan
  | finite a, finite b => finite (a + b)
  | finite _, posInf => posInf
  | finite _, negInf => negInf
  | posInf, finite _ => posInf
  | negInf, finite _ => negInf
  | posInf, posInf => posInf
  | negInf, negInf => negInf
  | posInf, negInf => nan
  | negInf, posInf => nan

/-- IEEE subtraction on the model (finite subtraction is exact). -/
def sub : FP → FP → FP
  | nan, _ => nan
  | _, nan => nan
  | finite a, finite b => finite (a - b)
  | finite _, posInf => negInf
  | finite _, negInf => posInf
  | posInf, finite _ => posInf
  | negInf, finite _ => negInf
  | posInf, negInf => posInf
  | negInf, posInf => negInf
  | posInf, posInf => nan
  | negInf, negInf => nan

/-- IEEE division on the model (finite division by a nonzero value is
exact; signed zero is not modelled, division by zero follows the sign of
the numerator). -/
noncomputable def div : FP → FP → FP
  | nan, _ => nan
  | _, nan => nan
  | finite a, finite b =>
      if b = 0 then
        if a = 0 then nan else if 0 < a then posInf else negInf
      else finite (a / b)
  | posInf, finite b => if 0 ≤ b then posInf else negInf
  | negInf, finite b => if 0 ≤ b then negInf else posInf
  | finite _, posInf => finite 0
  | finite _, negInf => finite 0
  | posInf, posInf => nan
  | posInf, negInf => nan
  | negInf, posInf => nan
  | negInf, negInf => nan

/-- IEEE natural logarithm on the model. -/
noncomputable def log : FP → FP
  | nan => nan
  | posInf => posInf
  | negInf => nan
  | finite a =>
      if a < 0 then nan else if a = 0 then negInf else finite (Real.log a)

/-- Modelled from the spec: stan::math::log1p (declared in
stan/math/special_functions.hpp, not part of the given sources) computes
log(1+x) in a numerically stable way; its exact mathematical value on
the model is log(1+x), with the IEEE domain behaviour at and below -1. -/
noncomputable def log1p : FP → FP
  | nan => nan
  | posInf => posInf
  | negInf => nan
  | finite a =>
      if a < -1 then nan
      else if a = -1 then negInf
      else finite (Real.log (1 + a))

/-- Modelled from the spec: stan::math::square (declared in
stan/math/special_functions.hpp, not part of the given sources) is the
square helper computing x * x. -/
def square : FP → FP
  | nan => nan
  | finite a => finite (a * a)
  | _ => posInf

/-- IEEE two-argument arctangent std::atan2(a, b) on the model, with the
standard quadrant behaviour; for a positive finite second argument it is
arctan (a / b). -/
noncomputable def atan2 : FP → FP → FP
  | nan, _ => nan
  | _, nan => nan
  | finite a, finite b =>
      if 0 < b then finite (Real.arctan (a / b))
      else if b < 0 then
        if 0 ≤ a then finite (Real.arctan (a / b) + Real.pi)
        else finite (Real.arctan (a / b) - Real.pi)
      else
        if 0 < a then finite (Real.pi / 2)
        else if a < 0 then finite (-(Real.pi / 2))
        else finite 0
  | posInf, finite _ => finite (Real.pi / 2)
  | negInf, finite _ => finite (-(Real.pi / 2))
  | finite _, posInf => finite 0
  | finite a, negInf => if 0 ≤ a then finite Real.pi else finite (-Real.pi)
  | posInf, posInf => finite (Real.pi / 4)
  | posInf, negInf => finite (3 * Real.pi / 4)
  | negInf, posInf => finite (-(Real.pi / 4))
  | negInf, negInf => finite (-(3 * Real.pi / 4))

end FP

/-- Modelled from the spec: the constant NEG_LOG_PI from
stan/prob/constants.hpp (not part of the given sources), the value
-log(pi). -/
noncomputable def NEG_LOG_PI : FP := .finite (-Real.log Real.pi)

/-- Modelled from the spec: stan::math::pi() (not part of the given
sources), the constant pi. -/
noncomputable def piConst : FP := .finite Real.pi

/-- Which validation check failed; the label carried to the policy. -/
inductive CheckFailure where
  | variateNan
  | locNotFinite
  | scaleNotFinite
  | scaleNotPositive
deriving DecidableEq

/-- Modelled from the spec: the error policy (section 4.5) either
signals a hard error upward, or soft-continues, optionally writing a
sentinel value into the result slot before the evaluator returns early.
The default boost policy raises a hard error. -/
inductive Policy where
  | raise
  | soft (sentinel : Option FP)

/-- Result of one evaluator call: a hard error signalled by the policy,
or a returned value. -/
inductive EvalResult where
  | error (f : CheckFailure)
  | ok (v : FP)

/-- What happens when a check fails: the policy receives the failure and
the sentinel slot (the accumulator).  A raising policy signals the error;
a soft policy makes the evaluator return the slot, overwritten with the
sentinel when the policy supplies one. -/
def Policy.onFail : Policy → FP → CheckFailure → EvalResult
  | .raise, _, f => .error f
  | .soft w, slot, _ => .ok (w.getD slot)

/-- Modelled from the spec: stan::math::default_policy() (not part of
the given sources) signals a hard error on validation failure. -/
def default_policy : Policy := .raise

/-- Modelled from the spec: stan::math::check_not_nan from
stan/math/error_handling.hpp (not part of the given sources) passes
exactly when the value is not NaN. -/
def check_not_nan (x : FP) : Bool := !x.isNan

/-- Modelled from the spec: stan::math::check_finite from
stan/math/error_handling.hpp (not part of the given sources) passes
exactly when the value is finite (not NaN, not infinite). -/
def check_finite (x : FP) : Bool := x.isFinite

/-- Modelled from the spec: stan::math::check_positive from
stan/math/error_handling.hpp (not part of the given sources) passes
exactly when the value is strictly positive. -/
noncomputable def check_positive (x : FP) : Bool :=
  match x with
  | .finite a => decide (0 < a)
  | .posInf => true
  | _ => false

/-- Modelled from the spec: stan::prob::include_summand from
stan/prob/traits.hpp (not part of the given sources).  A summand is
included when the proportional-only flag is off, or when at least one of
the argument types it depends on is an active (differentiable) type;
here each argument type is abstracted to its activity flag. -/
def include_summand (propto : Bool) (actives : List Bool) : Bool :=
  !propto || actives.any id

/-- The main log-density evaluator cauchy_log from cauchy.hpp, lines
17-50: four validation checks in order with early return through the
policy, then the selective-term accumulation of
-log(pi) - log(sigma) - log1p(square((y-mu)/sigma)).
The template type parameters are abstracted to activity flags ay, amu,
asigma for the variate, location and scale arguments. -/
noncomputable def cauchy_log (propto ay amu asigma : Bool)
    (y mu sigma : FP) (pol : Policy) : EvalResult :=
  let lp : FP := .finite 0
  if !check_not_nan y then pol.onFail lp .variateNan
  else if !check_finite mu then pol.onFail lp .locNotFinite
  else if !check_finite sigma then pol.onFail lp .scaleNotFinite
  else if !check_positive sigma then pol.onFail lp .scaleNotPositive
  else
    let lp := if include_summand propto [] then lp.add NEG_LOG_PI else lp
    let lp := if include_summand propto [asigma] then lp.sub sigma.log else lp
    let lp :=
      if include_summand propto [ay, amu, asigma] then
        lp.sub (((y.sub mu).div sigma).square.log1p)
      else lp
    .ok lp

/-- Overload of cauchy_log without a policy (cauchy.hpp lines 53-59):
delegates with the default policy. -/
noncomputable def cauchy_log_default_policy (propto ay amu asigma : Bool)
    (y mu sigma : FP) : EvalResult :=
  cauchy_log propto ay amu asigma y mu sigma default_policy

/-- Overload of cauchy_log without the propto flag (cauchy.hpp lines
61-68): delegates with propto = false. -/
noncomputable def cauchy_log_full (ay amu asigma : Bool)
    (y mu sigma : FP) (pol : Policy) : EvalResult :=
  cauchy_log false ay amu asigma y mu sigma pol

/-- Overload of cauchy_log without the propto flag and without a policy
(cauchy.hpp lines 70-75): delegates with propto = false and the default
policy. -/
noncomputable def cauchy_log_plain (ay amu asigma : Bool)
    (y mu sigma : FP) : EvalResult :=
  cauchy_log false ay amu asigma y mu sigma default_policy

/-- The CDF evaluator cauchy_p from cauchy.hpp, lines 94-122: the same
four validation checks in order with early return through the policy,
then atan2(y - mu, sigma) / pi + 0.5. -/
noncomputable def cauchy_p (y mu sigma : FP) (pol : Policy) : EvalResult :=
  let lp : FP := .finite 0
  if !check_not_nan y then pol.onFail lp .variateNan
  else if !check_finite mu then pol.onFail lp .locNotFinite
  else if !check_finite sigma then pol.onFail lp .scaleNotFinite
  else if !check_positive sigma then pol.onFail lp .scaleNotPositive
  else
    .ok ((((y.sub mu).atan2 sigma).div piConst).add (.finite 0.5))

/-- Overload of cauchy_p without a policy (cauchy.hpp lines 124-128):
delegates with the default policy. -/
noncomputable def cauchy_p_default_policy (y mu sigma : FP) : EvalResult :=
  cauchy_p y mu sigma default_policy

/-! Evaluation lemmas for valid finite inputs, shared by the claims. -/

theorem check_positive_finite_pos {s : ℝ} (hs : 0 < s) :
    check_positive (.finite s) = true := by
  simp [check_positive, hs]

theorem FP.log_finite_pos {s : ℝ} (hs : 0 < s) :
    FP.log (.finite s) = .finite (Real.log s) := by
  simp [FP.log, not_lt.mpr hs.le, hs.ne']

theorem FP.div_finite {a s : ℝ} (hs : s ≠ 0) :
    FP.div (.finite a) (.finite s) = .finite (a / s) := by
  simp [FP.div, hs]

theorem FP.log1p_square {t : ℝ} :
    FP.log1p (FP.square (.finite t)) = .finite (Real.log (1 + t * t)) := by
  have h0 : (0:ℝ) ≤ t * t := mul_self_nonneg t
  have h1 : ¬ (t * t < -1) := by nlinarith
  have h2 : t * t ≠ -1 := by nlinarith
  simp [FP.square, FP.log1p, h1, h2]

/-- General evaluation of cauchy_log at finite arguments with a positive
scale: all four checks pass, and each of the three summands contributes
exactly when its include_summand flag is on. -/
theorem cauchy_log_eval (propto ay amu as : Bool) (y mu s : ℝ)
    (hs : 0 < s) (pol : Policy) :
    cauchy_log propto ay amu as (.finite y) (.finite mu) (.finite s) pol =
      .ok (.finite
        ((if include_summand propto [] then -Real.log Real.pi else 0)
          + (if include_summand propto [as] then -Real.log s else 0)
          + (if include_summand propto [ay, amu, as] then
              -Real.log (1 + ((y - mu) / s) * ((y - mu) / s)) else 0))) := by
  rw [cauchy_log]
  simp only [check_not_nan, check_finite, FP.isNan, FP.isFinite,
    check_positive_finite_pos hs, Bool.not_true, Bool.not_false,
    Bool.false_eq_true, if_false]
  rw [FP.log_finite_pos hs, FP.sub, FP.div_finite hs.ne', FP.log1p_square]
  cases hA : include_summand propto [] <;>
    cases hB : include_summand propto [as] <;>
      cases hC : include_summand propto [ay, amu, as] <;>
        simp [NEG_LOG_PI, FP.add, FP.sub] <;> ring

/-- General evaluation of cauchy_p at finite arguments with a positive
scale: all four checks pass and the closed form
arctan((y - mu)/sigma)/pi + 0.5 is returned. -/
theorem cauchy_p_eval (y mu s : ℝ) (hs : 0 < s) (pol : Policy) :
    cauchy_p (.finite y) (.finite mu) (.finite s) pol =
      .ok (.finite (Real.arctan ((y - mu) / s) / Real.pi + 0.5)) := by
  rw [cauchy_p]
  simp only [check_not_nan, check_finite, FP.isNan, FP.isFinite,
    check_positive_finite_pos hs, Bool.not_true, Bool.not_false,
    Bool.false_eq_true, if_false]
  rw [FP.sub]
  have : FP.atan2 (.finite (y - mu)) (.finite s) =
      .finite (Real.arctan ((y - mu) / s)) := by
    simp [FP.atan2, hs]
  rw [this, piConst, FP.div_finite Real.pi_ne_zero, FP.add]

/-! The claims. -/

/-- C1: for every finite variate y, finite location mu and finite scale
sigma > 0, the full (propto = false) log-density evaluator returns
-log(pi) - log(sigma) - log(1 + ((y-mu)/sigma)^2); in particular at
y = mu it returns -log(pi) - log(sigma), and at (0, 0, 1) it returns
-log(pi). -/
theorem cauchy_log_full_correct (y mu s : ℝ) (hs : 0 < s)
    (ay amu as : Bool) (pol : Policy) :
    cauchy_log false ay amu as (.finite y) (.finite mu) (.finite s) pol =
      .ok (.finite (-Real.log Real.pi - Real.log s
        - Real.log (1 + ((y - mu) / s) ^ 2)))
    ∧ cauchy_log false ay amu as (.finite mu) (.finite mu) (.finite s) pol =
      .ok (.finite (-Real.log Real.pi - Real.log s))
    ∧ cauchy_log false ay amu as (.finite 0) (.finite 0) (.finite 1) pol =
      .ok (.finite (-Real.log Real.pi)) := by
  have key : ∀ y' : ℝ,
      cauchy_log false ay amu as (.finite y') (.finite mu) (.finite s) pol =
        .ok (.finite (-Real.log Real.pi - Real.log s
          - Real.log (1 + ((y' - mu) / s) ^ 2))) := by
    intro y'
    rw [cauchy_log_eval false ay amu as y' mu s hs pol]
    simp only [include_summand, Bool.not_false, Bool.true_or, if_true,
      EvalResult.ok.injEq, FP.finite.injEq, pow_two]
    ring
  refine ⟨key y, ?_, ?_⟩
  · rw [key mu]; norm_num
  · rw [cauchy_log_eval false ay amu as 0 0 1 one_pos pol]
    simp only [include_summand, Bool.not_false, Bool.true_or, if_true,
      EvalResult.ok.injEq, FP.finite.injEq]
    norm_num

/-- Witness for C1 at (y, mu, sigma) = (0, 0, 1). -/
theorem cauchy_log_full_correct_witness :
    cauchy_log false false false false
        (.finite 0) (.finite 0) (.finite 1) .raise =
      .ok (.finite (-Real.log Real.pi)) :=
  (cauchy_log_full_correct 0 0 1 one_pos false false false .raise).2.2

/-- C2: for every finite variate y, finite location mu and finite scale
sigma > 0, the CDF evaluator returns atan2(y - mu, sigma)/pi + 0.5,
which for positive sigma is arctan((y - mu)/sigma)/pi + 0.5; in
particular at y = mu it returns 0.5, and at (1, 0, 1) it returns
0.75. -/
theorem cauchy_p_correct (y mu s : ℝ) (hs : 0 < s) (pol : Policy) :
    cauchy_p (.finite y) (.finite mu) (.finite s) pol =
      .ok (.finite (Real.arctan ((y - mu) / s) / Real.pi + 0.5))
    ∧ cauchy_p (.finite mu) (.finite mu) (.finite s) pol =
      .ok (.finite 0.5)
    ∧ cauchy_p (.finite 1) (.finite 0) (.finite 1) pol =
      .ok (.finite 0.75) := by
  refine ⟨cauchy_p_eval y mu s hs pol, ?_, ?_⟩
  · rw [cauchy_p_eval mu mu s hs pol]
    norm_num
  · rw [cauchy_p_eval 1 0 1 one_pos pol]
    have hπ := Real.pi_ne_zero
    norm_num [Real.arctan_one]
    field_simp
    ring

/-- Witness for C2 at (y, mu, sigma) = (1, 0, 1). -/
theorem cauchy_p_correct_witness :
    cauchy_p (.finite 1) (.finite 0) (.finite 1) .raise =
      .ok (.finite 0.75) :=
  (cauchy_p_correct 1 0 1 one_pos .raise).2.2

/-- C3: in both evaluators the checks run in the fixed order variate
not-NaN, location finite, scale finite, scale positive; the first
failing check ends evaluation with the policy-determined outcome on the
zero-initialized slot; and for every scale that is NaN or a real
number at most 0, with any finite variate and location, validation
fails (at the scale-finiteness check for NaN, at the positivity check
otherwise) and the formula is never evaluated. -/
theorem validation_order (propto ay amu as : Bool) (y mu sigma : FP)
    (pol : Policy) :
    (y.isNan = true →
      cauchy_log propto ay amu as y mu sigma pol =
        pol.onFail (.finite 0) .variateNan
      ∧ cauchy_p y mu sigma pol = pol.onFail (.finite 0) .variateNan)
    ∧ (y.isNan = false → mu.isFinite = false →
      cauchy_log propto ay amu as y mu sigma pol =
        pol.onFail (.finite 0) .locNotFinite
      ∧ cauchy_p y mu sigma pol = pol.onFail (.finite 0) .locNotFinite)
    ∧ (y.isNan = false → mu.isFinite = true → sigma.isFinite = false →
      cauchy_log propto ay amu as y mu sigma pol =
        pol.onFail (.finite 0) .scaleNotFinite
      ∧ cauchy_p y mu sigma pol = pol.onFail (.finite 0) .scaleNotFinite)
    ∧ (y.isNan = false → mu.isFinite = true → sigma.isFinite = true →
        check_positive sigma = false →
      cauchy_log propto ay amu as y mu sigma pol =
        pol.onFail (.finite 0) .scaleNotPositive
      ∧ cauchy_p y mu sigma pol = pol.onFail (.finite 0) .scaleNotPositive)
    ∧ (∀ s : ℝ, sigma = .finite s → s ≤ 0 →
        y.isNan = false → mu.isFinite = true →
      cauchy_log propto ay amu as y mu sigma pol =
        pol.onFail (.finite 0) .scaleNotPositive
      ∧ cauchy_p y mu sigma pol = pol.onFail (.finite 0) .scaleNotPositive)
    ∧ (sigma = .nan → y.isNan = false → mu.isFinite = true →
      cauchy_log propto ay amu as y mu sigma pol =
        pol.onFail (.finite 0) .scaleNotFinite
      ∧ cauchy_p y mu sigma pol = pol.onFail (.finite 0) .scaleNotFinite) := by
  refine ⟨?_, ?_, ?_, ?_, ?_, ?_⟩
  · intro hy
    rw [cauchy_log, cauchy_p]
    simp [check_not_nan, hy]
  · intro hy hmu
    rw [cauchy_log, cauchy_p]
    simp [check_not_nan, check_finite, hy, hmu]
  · intro hy hmu hsf
    rw [cauchy_log, cauchy_p]
    simp [check_not_nan, check_finite, hy, hmu, hsf]
  · intro hy hmu hsf hsp
    rw [cauchy_log, cauchy_p]
    simp [check_not_nan, check_finite, hy, hmu, hsf, hsp]
  · intro s hsig hle hy hmu
    subst hsig
    have hsp : check_positive (.finite s) = false := by
      simp [check_positive, not_lt.mpr hle]
    have hsf : (FP.finite s).isFinite = true := rfl
    rw [cauchy_log, cauchy_p]
    simp [check_not_nan, check_finite, hy, hmu, hsf, hsp]
  · intro hsig hy hmu
    subst hsig
    have hsf : (FP.nan).isFinite = false := rfl
    rw [cauchy_log, cauchy_p]
    simp [check_not_nan, check_finite, hy, hmu, hsf]

/-- Witness for C3 at a finite negative scale. -/
theorem validation_order_witness :
    cauchy_log false false false false
        (.finite 0) (.finite 0) (.finite (-1)) .raise =
      Policy.onFail .raise (.finite 0) .scaleNotPositive
    ∧ cauchy_p (.finite 0) (.finite 0) (.finite (-1)) .raise =
      Policy.onFail .raise (.finite 0) .scaleNotPositive :=
  (validation_order false false false false
      (.finite 0) (.finite 0) (.finite (-1)) .raise).2.2.2.2.1
    (-1) rfl (by norm_num) rfl rfl

/-- C9: the sentinel slot passed to the policy is the accumulator, which
both evaluators initialize to 0 before the checks; with a policy that
soft-continues without writing a sentinel, both evaluators return
exactly 0 on every input that fails some check. -/
theorem soft_policy_returns_zero (propto ay amu as : Bool)
    (y mu sigma : FP)
    (h : y.isNan = true ∨ mu.isFinite = false ∨ sigma.isFinite = false
      ∨ check_positive sigma = false) :
    cauchy_log propto ay amu as y mu sigma (.soft none) = .ok (.finite 0)
    ∧ cauchy_p y mu sigma (.soft none) = .ok (.finite 0) := by
  have step : ∀ f : CheckFailure,
      Policy.onFail (.soft none) (.finite 0) f = .ok (.finite 0) := by
    intro f; rfl
  cases hy : y.isNan with
  | true =>
    rw [cauchy_log, cauchy_p]
    simp [check_not_nan, hy, step]
  | false =>
    cases hmu : mu.isFinite with
    | false =>
      rw [cauchy_log, cauchy_p]
      simp [check_not_nan, check_finite, hy, hmu, step]
    | true =>
      cases hsf : sigma.isFinite with
      | false =>
        rw [cauchy_log, cauchy_p]
        simp [check_not_nan, check_finite, hy, hmu, hsf, step]
      | true =>
        cases hsp : check_positive sigma with
        | false =>
          rw [cauchy_log, cauchy_p]
          simp [check_not_nan, check_finite, hy, hmu, hsf, hsp, step]
        | true =>
          simp [hy, hmu, hsf, hsp] at h

/-- Witness for C9 at a NaN variate. -/
theorem soft_policy_returns_zero_witness :
    cauchy_log false false false false
        .nan (.finite 0) (.finite 1) (.soft none) = .ok (.finite 0)
    ∧ cauchy_p .nan (.finite 0) (.finite 1) (.soft none) =
      .ok (.finite 0) :=
  soft_policy_returns_zero false false false false
    .nan (.finite 0) (.finite 1) (Or.inl rfl)

/-- C10: an infinite variate passes validation (only not-NaN is checked
on the variate); the CDF then returns exactly 1 at positive infinity
and exactly 0 at negative infinity, and the full log-density returns
negative infinity at both. -/
theorem infinite_variate_accepted (mu s : ℝ) (hs : 0 < s)
    (ay amu as : Bool) (pol : Policy) :
    cauchy_p .posInf (.finite mu) (.finite s) pol = .ok (.finite 1)
    ∧ cauchy_p .negInf (.finite mu) (.finite s) pol = .ok (.finite 0)
    ∧ cauchy_log false ay amu as .posInf (.finite mu) (.finite s) pol =
      .ok .negInf
    ∧ cauchy_log false ay amu as .negInf (.finite mu) (.finite s) pol =
      .ok .negInf := by
  have hπ := Real.pi_ne_zero
  refine ⟨?_, ?_, ?_, ?_⟩
  · rw [cauchy_p]
    simp only [check_not_nan, check_finite, FP.isNan, FP.isFinite,
      check_positive_finite_pos hs, Bool.not_true, Bool.not_false,
      Bool.false_eq_true, if_false]
    rw [show FP.sub .posInf (.finite mu) = .posInf from rfl,
      show FP.atan2 .posInf (.finite s) = .finite (Real.pi / 2) from rfl,
      piConst, FP.div_finite hπ, FP.add]
    simp only [EvalResult.ok.injEq, FP.finite.injEq]
    field_simp
    ring
  · rw [cauchy_p]
    simp only [check_not_nan, check_finite, FP.isNan, FP.isFinite,
      check_positive_finite_pos hs, Bool.not_true, Bool.not_false,
      Bool.false_eq_true, if_false]
    rw [show FP.sub .negInf (.finite mu) = .negInf from rfl,
      show FP.atan2 .negInf (.finite s) = .finite (-(Real.pi / 2)) from rfl,
      piConst, FP.div_finite hπ, FP.add]
    simp only [EvalResult.ok.injEq, FP.finite.injEq]
    field_simp
    ring
  · rw [cauchy_log]
    simp only [check_not_nan, check_finite, FP.isNan, FP.isFinite,
      check_positive_finite_pos hs, Bool.not_true, Bool.not_false,
      Bool.false_eq_true, if_false]
    rw [FP.log_finite_pos hs]
    simp [include_summand, NEG_LOG_PI, FP.add, FP.sub, FP.div, hs.le,
      FP.square, FP.log1p]
  · rw [cauchy_log]
    simp only [check_not_nan, check_finite, FP.isNan, FP.isFinite,
      check_positive_finite_pos hs, Bool.not_true, Bool.not_false,
      Bool.false_eq_true, if_false]
    rw [FP.log_finite_pos hs]
    simp [include_summand, NEG_LOG_PI, FP.add, FP.sub, FP.div, hs.le,
      FP.square, FP.log1p]

/-- Witness for C10 at mu = 0, sigma = 1. -/
theorem infinite_variate_accepted_witness :
    cauchy_p .posInf (.finite 0) (.finite 1) .raise = .ok (.finite 1)
    ∧ cauchy_p .negInf (.finite 0) (.finite 1) .raise = .ok (.finite 0)
    ∧ cauchy_log false false false false
        .posInf (.finite 0) (.finite 1) .raise = .ok .negInf
    ∧ cauchy_log false false false false
        .negInf (.finite 0) (.finite 1) .raise = .ok .negInf :=
  infinite_variate_accepted 0 1 one_pos false false false .raise

theorem pi_half_div_pi : Real.pi / 2 / Real.pi = 1 / 2 := by
  rw [div_div, mul_comm, ← div_div, div_self Real.pi_ne_zero]

/-- C4: the selective (propto = true) log-density drops exactly the
specified terms: -log(pi) is always dropped, -log(sigma) is dropped
when the scale is not active, and the third term is dropped when no
argument is active (so with no active arguments the result is 0);
and with only the variate active, the full value minus the selective
value is the constant -log(pi) - log(sigma), independent of the
variate. -/
theorem selective_terms (y mu s : ℝ) (hs : 0 < s) (pol : Policy) :
    (∀ ay amu as : Bool,
      cauchy_log true ay amu as (.finite y) (.finite mu) (.finite s) pol =
        .ok (.finite ((if as then -Real.log s else 0)
          + (if ay || amu || as then
              -Real.log (1 + ((y - mu) / s) ^ 2) else 0))))
    ∧ cauchy_log true false false false
        (.finite y) (.finite mu) (.finite s) pol = .ok (.finite 0)
    ∧ (∀ y2 : ℝ, ∃ r1 r2 : ℝ,
        cauchy_log false true false false
          (.finite y2) (.finite mu) (.finite s) pol = .ok (.finite r1)
        ∧ cauchy_log true true false false
          (.finite y2) (.finite mu) (.finite s) pol = .ok (.finite r2)
        ∧ r1 - r2 = -Real.log Real.pi - Real.log s) := by
  have key : ∀ ay amu as : Bool,
      cauchy_log true ay amu as (.finite y) (.finite mu) (.finite s) pol =
        .ok (.finite ((if as then -Real.log s else 0)
          + (if ay || amu || as then
              -Real.log (1 + ((y - mu) / s) ^ 2) else 0))) := by
    intro ay amu as
    rw [cauchy_log_eval true ay amu as y mu s hs pol]
    simp only [include_summand, Bool.not_true, Bool.false_or, List.any_nil,
      List.any_cons, id, Bool.or_false, Bool.false_eq_true, if_false,
      zero_add, EvalResult.ok.injEq, FP.finite.injEq, pow_two,
      Bool.or_assoc]
  refine ⟨key, ?_, ?_⟩
  · rw [key false false false]
    norm_num
  · intro y2
    refine ⟨-Real.log Real.pi + -Real.log s
        + -Real.log (1 + ((y2 - mu) / s) * ((y2 - mu) / s)),
      -Real.log (1 + ((y2 - mu) / s) * ((y2 - mu) / s)), ?_, ?_, by ring⟩
    · rw [cauchy_log_eval false true false false y2 mu s hs pol]
      simp [include_summand]
    · rw [cauchy_log_eval true true false false y2 mu s hs pol]
      simp [include_summand]

/-- Witness for C4 at (y, mu, sigma) = (0, 0, 1) with no active
arguments. -/
theorem selective_terms_witness :
    cauchy_log true false false false
        (.finite 0) (.finite 0) (.finite 1) .raise = .ok (.finite 0) :=
  (selective_terms 0 0 1 one_pos .raise).2.1

/-- C5: for every finite variate, finite location and finite positive
scale, the CDF result lies strictly between 0 and 1. -/
theorem cdf_range (y mu s : ℝ) (hs : 0 < s) (pol : Policy) :
    ∃ r : ℝ,
      cauchy_p (.finite y) (.finite mu) (.finite s) pol = .ok (.finite r)
      ∧ 0 < r ∧ r < 1 := by
  refine ⟨Real.arctan ((y - mu) / s) / Real.pi + 0.5,
    cauchy_p_eval y mu s hs pol, ?_, ?_⟩
  · have h := (div_lt_div_iff_of_pos_right Real.pi_pos).mpr
      (Real.neg_pi_div_two_lt_arctan ((y - mu) / s))
    rw [neg_div, pi_half_div_pi] at h
    linarith
  · have h := (div_lt_div_iff_of_pos_right Real.pi_pos).mpr
      (Real.arctan_lt_pi_div_two ((y - mu) / s))
    rw [pi_half_div_pi] at h
    linarith

/-- Witness for C5 at (y, mu, sigma) = (0, 0, 1). -/
theorem cdf_range_witness :
    ∃ r : ℝ,
      cauchy_p (.finite 0) (.finite 0) (.finite 1) .raise =
        .ok (.finite r)
      ∧ 0 < r ∧ r < 1 :=
  cdf_range 0 0 1 one_pos .raise

/-- C6: symmetry of the CDF about the location: for every real d,
finite mu and sigma > 0, cdf(mu + d) + cdf(mu - d) = 1. -/
theorem cdf_symmetry (d mu s : ℝ) (hs : 0 < s) (pol : Policy) :
    ∃ r1 r2 : ℝ,
      cauchy_p (.finite (mu + d)) (.finite mu) (.finite s) pol =
        .ok (.finite r1)
      ∧ cauchy_p (.finite (mu - d)) (.finite mu) (.finite s) pol =
        .ok (.finite r2)
      ∧ r1 + r2 = 1 := by
  refine ⟨_, _, cauchy_p_eval (mu + d) mu s hs pol,
    cauchy_p_eval (mu - d) mu s hs pol, ?_⟩
  have h1 : mu + d - mu = d := by ring
  have h2 : mu - d - mu = -d := by ring
  rw [h1, h2, neg_div, Real.arctan_neg]
  ring

/-- Witness for C6 at d = 1, mu = 0, sigma = 1. -/
theorem cdf_symmetry_witness :
    ∃ r1 r2 : ℝ,
      cauchy_p (.finite (0 + 1)) (.finite 0) (.finite 1) .raise =
        .ok (.finite r1)
      ∧ cauchy_p (.finite (0 - 1)) (.finite 0) (.finite 1) .raise =
        .ok (.finite r2)
      ∧ r1 + r2 = 1 :=
  cdf_symmetry 1 0 1 one_pos .raise

/-- C7: for fixed finite mu and sigma > 0 the CDF is strictly
increasing in the variate. -/
theorem cdf_strict_mono (y1 y2 mu s : ℝ) (hs : 0 < s) (hy : y1 < y2)
    (pol : Policy) :
    ∃ r1 r2 : ℝ,
      cauchy_p (.finite y1) (.finite mu) (.finite s) pol =
        .ok (.finite r1)
      ∧ cauchy_p (.finite y2) (.finite mu) (.finite s) pol =
        .ok (.finite r2)
      ∧ r1 < r2 := by
  refine ⟨_, _, cauchy_p_eval y1 mu s hs pol,
    cauchy_p_eval y2 mu s hs pol, ?_⟩
  have h1 : (y1 - mu) / s < (y2 - mu) / s :=
    (div_lt_div_iff_of_pos_right hs).mpr (by linarith)
  have h2 := Real.arctan_strictMono h1
  have h3 := (div_lt_div_iff_of_pos_right Real.pi_pos).mpr h2
  linarith

/-- Witness for C7 at y1 = 0 < y2 = 1, mu = 0, sigma = 1. -/
theorem cdf_strict_mono_witness :
    ∃ r1 r2 : ℝ,
      cauchy_p (.finite 0) (.finite 0) (.finite 1) .raise =
        .ok (.finite r1)
      ∧ cauchy_p (.finite 1) (.finite 0) (.finite 1) .raise =
        .ok (.finite r2)
      ∧ r1 < r2 :=
  cdf_strict_mono 0 1 0 1 one_pos one_pos .raise

/-- C8: the convenience overloads agree with the fully-specified entry
points: omitting the propto flag means propto = false, omitting the
policy means the default policy, and omitting both means both
defaults. -/
theorem overloads_agree (propto ay amu as : Bool) (y mu sigma : FP)
    (pol : Policy) :
    cauchy_log_default_policy propto ay amu as y mu sigma =
      cauchy_log propto ay amu as y mu sigma default_policy
    ∧ cauchy_log_full ay amu as y mu sigma pol =
      cauchy_log false ay amu as y mu sigma pol
    ∧ cauchy_log_plain ay amu as y mu sigma =
      cauchy_log false ay amu as y mu sigma default_policy
    ∧ cauchy_p_default_policy y mu sigma =
      cauchy_p y mu sigma default_policy :=
  ⟨rfl, rfl, rfl, rfl⟩

end StanCauchy
